import Mathlib

/-!
Verification of the config-sanitizer and PDF-fixture scripts
(scripts/generate_config_samples.py and scripts/generate_pdf_fixtures.py).

Python string primitives are embedded as executable functions over the
character list underlying a string, so that every definition reduces on
concrete inputs.
-/

set_option maxRecDepth 10000
set_option maxHeartbeats 1000000

/-- Characters removed by Python str.strip with no arguments: the ASCII
whitespace characters together with the additional code points Python treats
as whitespace (file and record separators, NEL, NBSP, and the Unicode space
separators). -/
def pyIsSpace (c : Char) : Bool :=
  [' ', '\t', '\n', '\r', '\x0b', '\x0c',
   '\x1c', '\x1d', '\x1e', '\x1f', '\x85', '\xa0',
   '\u1680', '\u2028', '\u2029', '\u202f', '\u205f', '\u3000'].contains c ||
  (decide (0x2000 ≤ c.toNat) && decide (c.toNat ≤ 0x200a))

/-- Python str.strip(): remove leading and trailing whitespace. -/
def pyStrip (s : String) : String :=
  ⟨((s.data.dropWhile pyIsSpace).reverse.dropWhile pyIsSpace).reverse⟩

/-- Python str.lower(). Config keys are ASCII, so ASCII lowercasing is used. -/
def pyLower (s : String) : String := ⟨s.data.map Char.toLower⟩

/-- Python s.startswith(pre). -/
def pyStartsWith (s pre : String) : Bool := pre.data.isPrefixOf s.data

/-- Python (c in s) for a single character c. -/
def strContainsChar (s : String) (c : Char) : Bool := s.data.any (fun d => d == c)

/-- Contiguous-occurrence test on character lists: needle occurs in hay. -/
def containsSubList (needle : List Char) : List Char → Bool
  | [] => needle.isEmpty
  | c :: rest => needle.isPrefixOf (c :: rest) || containsSubList needle rest

/-- Python (sub in s) for strings. -/
def pyIn (sub s : String) : Bool := containsSubList sub.data s.data

/-- The first line of s: every character before the first newline. -/
def firstLine (s : String) : String := ⟨s.data.takeWhile (fun c => !(c == '\n'))⟩

/-- Models re.match on a pattern of the form .*lit.* where lit is a literal
with no regex metacharacters. Since the dot does not match a newline and
re.match anchors at position 0 only, such a pattern matches a string exactly
when lit occurs inside its first line. -/
def reMatchAround (lit : String) (s : String) : Bool := pyIn lit (firstLine s)

/-- Models re.match on a plain literal pattern: match at position 0, i.e. a
prefix test (re.match does not anchor at the end). -/
def reMatchLit (lit : String) (s : String) : Bool := pyStartsWith s lit

/-- Helper for pySplit: split a character list at every occurrence of c. -/
def pySplitAux (c : Char) : List Char → List Char → List (List Char)
  | [], acc => [acc.reverse]
  | d :: rest, acc =>
      if d == c then acc.reverse :: pySplitAux c rest []
      else pySplitAux c rest (d :: acc)

/-- Python s.split(sep) for a one-character separator sep. -/
def pySplit (s : String) (c : Char) : List String :=
  (pySplitAux c s.data []).map (fun l => ⟨l⟩)

/-- The n-fold repetition of a string. -/
def pyRepeat (s : String) : Nat → String
  | 0 => ""
  | n + 1 => s ++ pyRepeat s n

/-- Python single-character str.replace, used for underscore-to-hyphen. -/
def pyReplaceChar (s : String) (old new : Char) : String :=
  ⟨s.data.map (fun c => if c == old then new else c)⟩

/-- Helper for pyReplace: fuel-indexed left-to-right replacement of every
occurrence of a non-empty needle. -/
def pyReplaceSubAux (needle repl : List Char) : Nat → List Char → List Char
  | _, [] => []
  | 0, l => l
  | fuel + 1, c :: rest =>
      if needle.isPrefixOf (c :: rest) then
        repl ++ pyReplaceSubAux needle repl fuel ((c :: rest).drop needle.length)
      else
        c :: pyReplaceSubAux needle repl fuel rest

/-- Python str.replace for string patterns. Every call site in the script
uses a non-empty pattern; for an empty pattern this model returns s
unchanged. -/
def pyReplace (s needle repl : String) : String :=
  if needle.data.isEmpty then s
  else ⟨pyReplaceSubAux needle.data repl.data s.data.length s.data⟩

/-- A parsed TOML value as produced by tomllib.load: strings, booleans,
integers, floats, dates and datetimes, arrays, and tables. Floats and
datetimes are carried as their textual form; the scripts never compute with
either, they only dispatch on the runtime type. -/
inductive TomlVal where
  | vStr (s : String)
  | vBool (b : Bool)
  | vInt (n : Int)
  | vFloat (r : String)
  | vDatetime (d : String)
  | vList (xs : List TomlVal)
  | vTable (kvs : List (String × TomlVal))

/-- The sensitive_patterns check of mask_sensitive_value: the lowered key is
matched with re.match against each pattern in order; the result is whether
any pattern matches. Patterns of the form .*lit.* are modelled by
reMatchAround and the three plain literal patterns by reMatchLit. -/
def isSensitiveKey (key : String) : Bool :=
  let kl := pyLower key
  reMatchAround ("api_key") kl || reMatchAround ("token") kl ||
  reMatchAround ("auth") kl || reMatchAround ("key") kl ||
  reMatchAround ("secret") kl || reMatchAround ("password") kl ||
  reMatchAround ("credential") kl || reMatchAround ("private_key") kl ||
  reMatchAround ("access_key") kl || reMatchAround ("subscription") kl ||
  reMatchAround ("account_id") kl || reMatchLit ("authorization") kl ||
  reMatchLit ("x-api-key") kl || reMatchLit ("x-subscription-token") kl

/-- A parsed JSON value as produced by json.loads: null, booleans, numbers,
strings, arrays, and objects. Numbers are carried as their lexical form; the
script never computes with them. -/
inductive Json where
  | jNull
  | jBool (b : Bool)
  | jNum (raw : String)
  | jStr (s : String)
  | jArr (xs : List Json)
  | jObj (kvs : List (String × Json))

mutual
/-- Equality test on JSON values, modelling the Python == used by the
membership operator on parsed JSON data. -/
def jsonBEq : Json → Json → Bool
  | .jNull, .jNull => true
  | .jBool a, .jBool b => a == b
  | .jNum a, .jNum b => a == b
  | .jStr a, .jStr b => a == b
  | .jArr a, .jArr b => jsonListBEq a b
  | .jObj a, .jObj b => jsonKVsBEq a b
  | _, _ => false
def jsonListBEq : List Json → List Json → Bool
  | [], [] => true
  | a :: as, b :: bs => jsonBEq a b && jsonListBEq as bs
  | _, _ => false
def jsonKVsBEq : List (String × Json) → List (String × Json) → Bool
  | [], [] => true
  | (k, v) :: as, (k2, v2) :: bs => k == k2 && jsonBEq v v2 && jsonKVsBEq as bs
  | _, _ => false
end

instance : BEq Json := ⟨jsonBEq⟩

/-- The whitespace characters skipped by the JSON grammar: space, tab,
line feed and carriage return. -/
def jIsWs (c : Char) : Bool :=
  c.toNat == 32 || c.toNat == 9 || c.toNat == 10 || c.toNat == 13

def jSkipWs (cs : List Char) : List Char := cs.dropWhile jIsWs

def hexVal (c : Char) : Nat :=
  if c.isDigit then c.toNat - 48
  else if decide (97 ≤ c.toNat) && decide (c.toNat ≤ 102) then c.toNat - 87
  else if decide (65 ≤ c.toNat) && decide (c.toNat ≤ 70) then c.toNat - 55
  else 16

def isHexDigitCh (c : Char) : Bool := decide (hexVal c < 16)

/-- Four hex digits of a JSON \u escape. -/
def parseHex4 : List Char → Option (Nat × List Char)
  | a :: b :: c :: d :: rest =>
      if isHexDigitCh a && isHexDigitCh b && isHexDigitCh c && isHexDigitCh d then
        some ((((hexVal a * 16 + hexVal b) * 16 + hexVal c) * 16 + hexVal d), rest)
      else none
  | _ => none

/-- Body of a JSON string literal, after the opening quote: returns the
decoded characters and the remainder after the closing quote. Mirrors the
strict json.loads scanner: raw control characters are rejected, the standard
escapes and \u escapes are decoded (surrogate pairs are not recombined). -/
def parseStrBody : Nat → List Char → Option (List Char × List Char)
  | 0, _ => none
  | _, [] => none
  | fuel + 1, c :: rest =>
      if c == '"' then some ([], rest)
      else if c == '\\' then
        match rest with
        | [] => none
        | e :: rest2 =>
            let cont := fun (ch : Char) (rs : List Char) =>
              match parseStrBody fuel rs with
              | some (body, rem) => some (ch :: body, rem)
              | none => none
            if e == '"' then cont '"' rest2
            else if e == '\\' then cont '\\' rest2
            else if e == '/' then cont '/' rest2
            else if e == 'b' then cont '\x08' rest2
            else if e == 'f' then cont '\x0c' rest2
            else if e == 'n' then cont '\n' rest2
            else if e == 'r' then cont '\r' rest2
            else if e == 't' then cont '\t' rest2
            else if e == 'u' then
              match parseHex4 rest2 with
              | some (n, rest3) => cont (Char.ofNat n) rest3
              | none => none
            else none
      else if decide (c.toNat < 32) then none
      else
        match parseStrBody fuel rest with
        | some (body, rem) => some (c :: body, rem)
        | none => none

/-- Integer part of a JSON number: 0, or a nonzero digit followed by digits. -/
def parseIntPart : List Char → Option (List Char × List Char)
  | [] => none
  | c :: rest =>
      if c == '0' then some (['0'], rest)
      else if c.isDigit then
        some (c :: rest.takeWhile Char.isDigit, rest.dropWhile Char.isDigit)
      else none

/-- Optional fractional part: a dot followed by at least one digit. -/
def parseFracPart (cs : List Char) : List Char × List Char :=
  match cs with
  | '.' :: rest =>
      let ds := rest.takeWhile Char.isDigit
      if ds.isEmpty then ([], cs) else ('.' :: ds, rest.dropWhile Char.isDigit)
  | _ => ([], cs)

/-- Optional exponent part: e or E, an optional sign, and digits. -/
def parseExpPart (cs : List Char) : List Char × List Char :=
  match cs with
  | e :: rest =>
      if e == 'e' || e == 'E' then
        match rest with
        | s :: rest2 =>
            if s == '+' || s == '-' then
              let ds := rest2.takeWhile Char.isDigit
              if ds.isEmpty then ([], cs)
              else (e :: s :: ds, rest2.dropWhile Char.isDigit)
            else
              let ds := rest.takeWhile Char.isDigit
              if ds.isEmpty then ([], cs)
              else (e :: ds, rest.dropWhile Char.isDigit)
        | [] => ([], cs)
      else ([], cs)
  | [] => ([], cs)

/-- A JSON number token: optional minus, integer part, optional fraction and
exponent; returns its lexical form. -/
def parseNumber (cs : List Char) : Option (List Char × List Char) :=
  match cs with
  | '-' :: rest =>
      match parseIntPart rest with
      | some (ip, r1) =>
          let fr := parseFracPart r1
          let ex := parseExpPart fr.2
          some ('-' :: (ip ++ fr.1 ++ ex.1), ex.2)
      | none => none
  | _ =>
      match parseIntPart cs with
      | some (ip, r1) =>
          let fr := parseFracPart r1
          let ex := parseExpPart fr.2
          some (ip ++ fr.1 ++ ex.1, ex.2)
      | none => none

/-- Assignment data[k] = v on a parsed JSON object with Python dict
semantics: an existing key keeps its position and receives the new value;
a missing key is appended at the end. -/
def objInsert : List (String × Json) → String → Json → List (String × Json)
  | [], k, v => [(k, v)]
  | (k2, v2) :: rest, k, v =>
      if k2 == k then (k2, v) :: rest else (k2, v2) :: objInsert rest k v

mutual
/-- One JSON value, modelling the recursive descent of json.loads. -/
def parseValue : Nat → List Char → Option (Json × List Char)
  | 0, _ => none
  | fuel + 1, cs =>
      match jSkipWs cs with
      | '\x7b' :: rest =>
          (match jSkipWs rest with
           | '\x7d' :: rest2 => some (.jObj [], rest2)
           | _ => parseMembers fuel rest [])
      | '[' :: rest =>
          (match jSkipWs rest with
           | ']' :: rest2 => some (.jArr [], rest2)
           | _ => parseItems fuel rest [])
      | '"' :: rest =>
          (match parseStrBody fuel rest with
           | some (body, rem) => some (.jStr ⟨body⟩, rem)
           | none => none)
      | 't' :: 'r' :: 'u' :: 'e' :: rest => some (.jBool true, rest)
      | 'f' :: 'a' :: 'l' :: 's' :: 'e' :: rest => some (.jBool false, rest)
      | 'n' :: 'u' :: 'l' :: 'l' :: rest => some (.jNull, rest)
      | other =>
          (match parseNumber other with
           | some (numCs, rem) => some (.jNum ⟨numCs⟩, rem)
           | none => none)
/-- The members of a JSON object, after the opening brace. -/
def parseMembers : Nat → List Char → List (String × Json) → Option (Json × List Char)
  | 0, _, _ => none
  | fuel + 1, cs, acc =>
      match jSkipWs cs with
      | '"' :: rest =>
          (match parseStrBody fuel rest with
           | some (keyCs, rem1) =>
               (match jSkipWs rem1 with
                | ':' :: rem2 =>
                    (match parseValue fuel rem2 with
                     | some (v, rem3) =>
                         (match jSkipWs rem3 with
                          | ',' :: rem4 => parseMembers fuel rem4 (objInsert acc ⟨keyCs⟩ v)
                          | '\x7d' :: rem4 => some (.jObj (objInsert acc ⟨keyCs⟩ v), rem4)
                          | _ => none)
                     | none => none)
                | _ => none)
           | none => none)
      | _ => none
/-- The items of a JSON array, after the opening bracket. -/
def parseItems : Nat → List Char → List Json → Option (Json × List Char)
  | 0, _, _ => none
  | fuel + 1, cs, acc =>
      match parseValue fuel cs with
      | some (v, rem) =>
          (match jSkipWs rem with
           | ',' :: rem2 => parseItems fuel rem2 (acc ++ [v])
           | ']' :: rem2 => some (.jArr (acc ++ [v]), rem2)
           | _ => none)
      | none => none
end

/-- json.loads: parse a complete JSON document, requiring that only
whitespace remains after the value. Returns none where json.loads raises. -/
def parseJson (s : String) : Option Json :=
  match parseValue (4 * s.data.length + 8) s.data with
  | some (v, rest) => if (jSkipWs rest).isEmpty then some v else none
  | none => none

/-- The lowercase hex digit for a value below sixteen. -/
def hexDigitCh (n : Nat) : Char :=
  if n < 10 then Char.ofNat (48 + n) else Char.ofNat (87 + n)

/-- A six-character \uXXXX escape for a code point below 0x10000. -/
def jEsc4 (n : Nat) : List Char :=
  ['\\', 'u', hexDigitCh (n / 4096 % 16), hexDigitCh (n / 256 % 16),
   hexDigitCh (n / 16 % 16), hexDigitCh (n % 16)]

/-- The escaping performed by json.dumps with its default ensure_ascii:
backslash, quote and the named control escapes, \u escapes for the other
control characters and for everything outside printable ASCII (astral code
points become a surrogate pair). -/
def jEscapeChar (c : Char) : List Char :=
  if c == '"' then ['\\', '"']
  else if c == '\\' then ['\\', '\\']
  else if c == '\n' then ['\\', 'n']
  else if c == '\t' then ['\\', 't']
  else if c == '\r' then ['\\', 'r']
  else if c == '\x08' then ['\\', 'b']
  else if c == '\x0c' then ['\\', 'f']
  else if decide (c.toNat < 32) then jEsc4 c.toNat
  else if decide (c.toNat < 127) then [c]
  else if decide (c.toNat < 65536) then jEsc4 c.toNat
  else
    jEsc4 (55296 + (c.toNat - 65536) / 1024) ++ jEsc4 (56320 + (c.toNat - 65536) % 1024)

/-- A JSON string literal as emitted by json.dumps. -/
def jQuote (s : String) : String := ⟨'"' :: ((s.data.map jEscapeChar).flatten ++ ['"'])⟩

mutual
/-- json.dumps(data, indent=2): a JSON value rendered at nesting level lvl. -/
def jdumpsV : Json → Nat → String
  | .jNull, _ => "null"
  | .jBool true, _ => "true"
  | .jBool false, _ => "false"
  | .jNum raw, _ => raw
  | .jStr s, _ => jQuote s
  | .jArr [], _ => "[]"
  | .jArr (x :: xs), lvl =>
      "[\n" ++ jdumpsItems (x :: xs) (lvl + 1) ++ "\n" ++ pyRepeat ("  ") lvl ++ "]"
  | .jObj [], _ => "\x7b\x7d"
  | .jObj (f :: fs), lvl =>
      "\x7b\n" ++ jdumpsFields (f :: fs) (lvl + 1) ++ "\n" ++ pyRepeat ("  ") lvl ++ "\x7d"
/-- Array items, comma-and-newline separated, each at indentation lvl. -/
def jdumpsItems : List Json → Nat → String
  | [], _ => ""
  | [x], lvl => pyRepeat ("  ") lvl ++ jdumpsV x lvl
  | x :: y :: rest, lvl =>
      pyRepeat ("  ") lvl ++ jdumpsV x lvl ++ ",\n" ++ jdumpsItems (y :: rest) lvl
/-- Object members, comma-and-newline separated, each at indentation lvl. -/
def jdumpsFields : List (String × Json) → Nat → String
  | [], _ => ""
  | [(k, v)], lvl => pyRepeat ("  ") lvl ++ jQuote k ++ ": " ++ jdumpsV v lvl
  | (k, v) :: f :: rest, lvl =>
      pyRepeat ("  ") lvl ++ jQuote k ++ ": " ++ jdumpsV v lvl ++ ",\n" ++
      jdumpsFields (f :: rest) lvl
end

/-- json.dumps(data, indent=2) on a complete document. -/
def jdumps (j : Json) : String := jdumpsV j 0

/-- The sensitive_json_fields list of mask_json_credentials. -/
def sensitive_json_fields : List String :=
  [("private_key"), ("private_key_id"), ("client_email"), ("client_id"),
   ("project_id"), ("auth_uri"), ("token_uri"), ("client_x509_cert_url")]

/-- The named placeholder chosen for a sensitive JSON field: four fields
have bespoke placeholders, the rest use the field name with underscores
replaced by hyphens. -/
def jsonFieldPlaceholder (f : String) : String :=
  if f == ("private_key") then "<your-private-key>"
  else if f == ("project_id") then "<your-project-id>"
  else if f == ("client_email") then "<your-service-account-email>"
  else if f == ("client_id") then "<your-client-id>"
  else "<your-" ++ pyReplaceChar f '_' '-' ++ ">"

/-- Python (field in data) for a parsed JSON object. -/
def dictContains (kvs : List (String × Json)) (k : String) : Bool :=
  kvs.any (fun p => p.1 == k)

/-- Python data[field] = v for a field already present in a parsed JSON
object: the entry keeps its position and receives the new value. -/
def dictAssign (kvs : List (String × Json)) (k : String) (v : Json) :
    List (String × Json) :=
  kvs.map (fun p => if p.1 == k then (p.1, v) else p)

/-- The loop body of mask_json_credentials: replace one sensitive field if
present. -/
def maskJsonStep (acc : List (String × Json)) (f : String) : List (String × Json) :=
  if dictContains acc f then dictAssign acc f (.jStr (jsonFieldPlaceholder f)) else acc

/-- The field-replacement loop of mask_json_credentials over
sensitive_json_fields. -/
def maskJsonFields (kvs : List (String × Json)) : List (String × Json) :=
  sensitive_json_fields.foldl maskJsonStep kvs

/-- mask_json_credentials: parse the string as JSON; on success mask the
known sensitive fields and re-serialize with indent 2; any failure (a parse
error, or the TypeError raised by the membership test or item assignment
when json.loads returned a non-object) is caught and yields the generic
placeholder. A parsed string raises only if some sensitive field name occurs
in it as a substring (the membership test on a str is a substring test); a
parsed array raises only if it has some sensitive field name as an element. -/
def mask_json_credentials (json_str : String) : String :=
  match parseJson json_str with
  | some (.jObj kvs) => jdumps (.jObj (maskJsonFields kvs))
  | some (.jArr xs) =>
      if sensitive_json_fields.any (fun f => xs.contains (.jStr f)) then
        "<your-service-account-json>"
      else jdumps (.jArr xs)
  | some (.jStr t) =>
      if sensitive_json_fields.any (fun f => pyIn f t) then
        "<your-service-account-json>"
      else jdumps (.jStr t)
  | some _ => "<your-service-account-json>"
  | none => "<your-service-account-json>"

/-- The ordered elif chain of literal startswith checks of
mask_sensitive_value, written as a first-match table: each entry pairs the
literal prefix with the placeholder its branch returns, in the order of the
source. The gho_ and ghu_ prefixes share one branch in the source and
appear here as two consecutive entries with the same placeholder. -/
def prefixPlaceholderTable : List (String × String) :=
  [(("sk-"), ("<your-api-key>")),
   (("gho_"), ("<your-github-token>")),
   (("ghu_"), ("<your-github-token>")),
   (("xai-"), ("<your-xai-api-key>")),
   (("pplx-"), ("<your-perplexity-api-key>")),
   (("gsk_"), ("<your-groq-api-key>")),
   (("csk-"), ("<your-cerebras-api-key>")),
   (("fw_"), ("<your-fireworks-api-key>")),
   (("nvapi-"), ("<your-nvidia-api-key>")),
   (("hf_"), ("<your-huggingface-token>")),
   (("cpk_"), ("<your-chutes-api-key>")),
   (("CHK-"), ("<your-chub-api-key>")),
   (("ns_"), ("<your-nscale-api-key>")),
   (("LLM|"), ("<your-meta-api-key>")),
   (("AKIA"), ("<your-aws-access-key-id>")),
   (("ya29."), ("<your-google-oauth-token>")),
   (("tid="), ("<your-copilot-token>")),
   (("eyJ"), ("<your-jwt-token>")),
   (("-----BEGIN"), ("<your-private-key>"))]

/-- First-match lookup over the prefix table: the placeholder of the first
entry whose prefix the value starts with, none when no prefix matches. -/
def findPrefixPlaceholder (s : String) : List (String × String) → Option String
  | [] => none
  | (pre, ph) :: rest =>
      if pyStartsWith s pre then some ph else findPrefixPlaceholder s rest

/-- The ordered chain of checks mask_sensitive_value runs on a string value
under a sensitive key: blank strings pass through, a brace-led string
containing the private_key substring is routed to mask_json_credentials,
then the three-part token-shape check, then the literal prefix checks in
table order, then the account_id key check, then the generic placeholder. -/
def maskSensitiveStr (key : String) (s : String) : String :=
  let key_lower := pyLower key
  if pyStrip s == "" then s
  else if pyStartsWith (pyStrip s) ("\x7b") && pyIn ("private_key") s then
    mask_json_credentials s
  else if strContainsChar s '.' && decide (3 ≤ (pySplit s '.').length) then
    "<your-jwt-token>"
  else
    match findPrefixPlaceholder s prefixPlaceholderTable with
    | some ph => ph
    | none => if key_lower == ("account_id") then "<your-account-id>" else "<your-api-key>"

/-- The dispatch of mask_sensitive_value: under a sensitive key, a string
value goes through the string chain (every branch of which yields a string);
everything else is returned unchanged. -/
def mask_sensitive_value (key : String) (value : TomlVal) : TomlVal :=
  if isSensitiveKey key then
    match value with
    | .vStr s => .vStr (maskSensitiveStr key s)
    | _ => value
  else value

mutual
/-- mask_toml_data: recursively mask a parsed TOML structure. A dict maps
each entry through the per-entry transform, a top-level list recurses into
its dict items and keeps other items, everything else is returned as is. -/
def mask_toml_data : TomlVal → TomlVal
  | .vTable kvs => .vTable (maskPairs kvs)
  | .vList xs => .vList (maskTopList xs)
  | v => v
/-- The dict comprehension of mask_toml_data: each entry keeps its key and
transforms its value with maskEntryValue. -/
def maskPairs : List (String × TomlVal) → List (String × TomlVal)
  | [] => []
  | (k, v) :: rest => (k, maskEntryValue k v) :: maskPairs rest
/-- The per-entry transform of mask_toml_data: a dict value recurses into
mask_toml_data, a list value maps dict items through mask_toml_data and
other items through mask_sensitive_value under the parent key, and any
other value goes through mask_sensitive_value under its key. -/
def maskEntryValue (key : String) : TomlVal → TomlVal
  | .vTable kvs => .vTable (maskPairs kvs)
  | .vList xs => .vList (maskValueList key xs)
  | v => mask_sensitive_value key v
/-- The list comprehension applied to a list value inside a dict. -/
def maskValueList (key : String) : List TomlVal → List TomlVal
  | [] => []
  | .vTable kvs :: rest => .vTable (maskPairs kvs) :: maskValueList key rest
  | v :: rest => mask_sensitive_value key v :: maskValueList key rest
/-- The list comprehension applied to a top-level list: dict items recurse,
all other items are kept unchanged. -/
def maskTopList : List TomlVal → List TomlVal
  | [] => []
  | .vTable kvs :: rest => .vTable (maskPairs kvs) :: maskTopList rest
  | v :: rest => v :: maskTopList rest
end

mutual
/-- Python str() on a parsed TOML value, as interpolated by the f-strings of
get_comment_for_key and write_toml: a string yields its content, booleans
the Python names True and False, numbers and datetimes their textual form, and
containers their repr rendering. -/
def pyStr : TomlVal → String
  | .vStr s => s
  | .vBool true => "True"
  | .vBool false => "False"
  | .vInt n => toString n
  | .vFloat r => r
  | .vDatetime d => d
  | .vList xs => "[" ++ pyReprItems xs ++ "]"
  | .vTable kvs => "\x7b" ++ pyReprFields kvs ++ "\x7d"
/-- Python repr() on a parsed TOML value: like str() except strings are
wrapped in single quotes (quote escaping inside the string is not
modelled; no claim depends on it). -/
def pyReprV : TomlVal → String
  | .vStr s => "\x27" ++ s ++ "\x27"
  | .vBool true => "True"
  | .vBool false => "False"
  | .vInt n => toString n
  | .vFloat r => r
  | .vDatetime d => d
  | .vList xs => "[" ++ pyReprItems xs ++ "]"
  | .vTable kvs => "\x7b" ++ pyReprFields kvs ++ "\x7d"
/-- Comma-separated reprs of list items. -/
def pyReprItems : List TomlVal → String
  | [] => ""
  | [x] => pyReprV x
  | x :: y :: rest => pyReprV x ++ ", " ++ pyReprItems (y :: rest)
/-- Comma-separated reprs of dict entries. -/
def pyReprFields : List (String × TomlVal) → String
  | [] => ""
  | [(k, v)] => "\x27" ++ k ++ "\x27: " ++ pyReprV v
  | (k, v) :: f :: rest => "\x27" ++ k ++ "\x27: " ++ pyReprV v ++ ", " ++ pyReprFields (f :: rest)
end

/-- The static comments dict of get_comment_for_key. -/
def commentsTable : List (String × String) :=
  [(("default_provider"), ("# Default AI provider to use when none is specified")),
   (("default_model"), ("# Default model to use with the default provider")),
   (("max_tokens"), ("# Maximum number of tokens to generate in responses")),
   (("temperature"), ("# Controls randomness in responses (0.0 = deterministic, 1.0 = very random)")),
   (("endpoint"), ("# API endpoint URL for this provider")),
   (("api_key"), ("# API key for authentication - replace with your actual key")),
   (("models"), ("# List of available models (auto-populated by the tool)")),
   (("models_path"), ("# API path to fetch available models")),
   (("chat_path"), ("# API path for chat completions")),
   (("images_path"), ("# API path for image generation")),
   (("embeddings_path"), ("# API path for text embeddings")),
   (("token_url"), ("# URL to refresh authentication tokens")),
   (("auth_type"), ("# Authentication method used by this provider")),
   (("bucket_name"), ("# S3 bucket name for sync storage")),
   (("region"), ("# AWS region for S3 bucket")),
   (("access_key_id"), ("# AWS access key ID - replace with your actual key")),
   (("secret_access_key"), ("# AWS secret access key - replace with your actual key")),
   (("auth_token"), ("# Authentication token - replace with your actual token")),
   (("server_type"), ("# MCP server connection type (Stdio or Sse)")),
   (("command_or_url"), ("# Command to start the MCP server or SSE endpoint URL")),
   (("provider_type"), ("# Search provider implementation type")),
   (("url"), ("# Search API endpoint URL"))]

/-- Python dict.get with default empty string on an association list. -/
def lookupD : List (String × String) → String → String
  | [], _ => ""
  | (k2, v) :: rest, k => if k2 == k then v else lookupD rest k

/-- get_comment_for_key: the comment attached above a key, selected on the
lowered key and lowered parent-section name, in the branch order of the
script: providers sections, env variables, header entries, cached-token
entries, aliases, templates, and finally the static comments dict. -/
def get_comment_for_key (key : String) (value : TomlVal) (parent_key : String) : String :=
  let key_lower := pyLower key
  let parent_lower := pyLower parent_key
  if parent_lower == ("providers") then
    "# Configuration for " ++ key ++ " AI provider"
  else if parent_lower == ("env") && pyIn ("_api_key") key_lower then
    "# API key environment variable for " ++ pyLower (pyReplace key ("_API_KEY") (""))
  else if parent_lower == ("env") && pyIn ("_token") key_lower then
    "# Token environment variable for " ++ pyLower (pyReplace key ("_TOKEN") (""))
  else if parent_lower == ("headers") then
    (if pyIn ("api") key_lower || pyIn ("key") key_lower then
      "# API key header - replace with your actual key"
    else if pyIn ("token") key_lower then
      "# Token header - replace with your actual token"
    else if pyIn ("authorization") key_lower then
      "# Authorization header - replace with your actual credentials"
    else "# HTTP header: " ++ key)
  else if parent_lower == ("cached_token") && key_lower == ("token") then
    "# Cached authentication token (auto-refreshed)"
  else if parent_lower == ("cached_token") && key_lower == ("expires_at") then
    "# Token expiration timestamp"
  else if parent_lower == ("aliases") then
    "# Shortcut alias: use \x27" ++ key ++ "\x27 instead of \x27" ++ pyStr value ++ "\x27"
  else if parent_lower == ("templates") then
    "# Prompt template for " ++ key ++ " tasks"
  else lookupD commentsTable key_lower

/-- The two-space indentation prefix of write_toml. -/
def indentStr (n : Nat) : String := pyRepeat ("  ") n

/-- Whether a TOML value is a Python str. -/
def isStrVal : TomlVal → Bool
  | .vStr _ => true
  | _ => false

/-- The payload of a string value. -/
def strPayload : TomlVal → String
  | .vStr s => s
  | _ => ""

/-- The comma-joined, quoted rendering of an all-string list value. -/
def joinQuoted : List TomlVal → String
  | [] => ""
  | [x] => "\"" ++ strPayload x ++ "\""
  | x :: y :: rest => "\"" ++ strPayload x ++ "\", " ++ joinQuoted (y :: rest)

/-- One scalar key-value pair of the first loop of write_toml: the comment
line if a comment applies, then the typed rendering of the value (multiline
strings as a block string, single-line strings quote-escaped, booleans
lowered, numbers as printed, all-string lists quoted and joined, other lists
via str()), then a blank spacing line when a comment was written. A value of
any other runtime type (a date or datetime) matches no isinstance branch
and produces no key-value line. -/
def writeScalarItem (key : String) (value : TomlVal) (ind : Nat) (parent : String) : String :=
  let comment := get_comment_for_key key value parent
  let commentPart := if comment == "" then "" else indentStr ind ++ comment ++ "\n"
  let valuePart :=
    match value with
    | .vStr s =>
        if strContainsChar s '\n' then
          indentStr ind ++ key ++ " = \"\"\"\n" ++ s ++ "\n\"\"\"\n"
        else
          indentStr ind ++ key ++ " = \"" ++ pyReplace s ("\"") ("\\\"") ++ "\"\n"
    | .vBool b => indentStr ind ++ key ++ " = " ++ (if b then "true" else "false") ++ "\n"
    | .vInt n => indentStr ind ++ key ++ " = " ++ toString n ++ "\n"
    | .vFloat r => indentStr ind ++ key ++ " = " ++ r ++ "\n"
    | .vList xs =>
        if xs.all isStrVal then
          indentStr ind ++ key ++ " = [" ++ joinQuoted xs ++ "]\n"
        else
          indentStr ind ++ key ++ " = " ++ pyStr (.vList xs) ++ "\n"
    | _ => ""
  let spacing := if comment == "" then "" else "\n"
  commentPart ++ valuePart ++ spacing

/-- The first loop of write_toml: every entry whose value is not a dict is
rendered as a scalar item, in order. -/
def writeScalarItems : List (String × TomlVal) → Nat → String → String
  | [], _, _ => ""
  | (_, .vTable _) :: rest, ind, parent => writeScalarItems rest ind parent
  | (key, v) :: rest, ind, parent =>
      writeScalarItem key v ind parent ++ writeScalarItems rest ind parent

mutual
/-- The second loop of write_toml: every entry whose value is a dict gets
its section rendering from writeSectionEntry; other entries contribute
nothing here. -/
def writeSectionItems : List (String × TomlVal) → Nat → String → String
  | [], _, _ => ""
  | (key, v) :: rest, ind, parent =>
      writeSectionEntry key v ind parent ++ writeSectionItems rest ind parent
/-- One dict-valued entry of the second loop of write_toml: its section
comment, a header line bracketing parent.key when a parent section name is
present and just key otherwise, and then the recursive rendering of the
subtable (the recursive write_toml call, inlined as its scalar loop followed
by its section loop, with the same indent and with the entry key as the new
parent). -/
def writeSectionEntry : String → TomlVal → Nat → String → String
  | key, .vTable sub, ind, parent =>
      (let c := get_comment_for_key key (.vTable sub) parent
       if c == "" then "" else indentStr ind ++ c ++ "\n") ++
      (if parent == "" then "\n" ++ indentStr ind ++ "[" ++ key ++ "]\n"
       else "\n" ++ indentStr ind ++ "[" ++ parent ++ "." ++ key ++ "]\n") ++
      (writeScalarItems sub ind key ++ writeSectionItems sub ind key)
  | _, _, _, _ => ""
end

/-- write_toml: render a parsed TOML dict, scalar entries first and then
nested sections. -/
def write_toml (kvs : List (String × TomlVal)) (ind : Nat) (parent : String) : String :=
  writeScalarItems kvs ind parent ++ writeSectionItems kvs ind parent

/-- The shape of a TOML value: which entries each table has and in which
order, the length and order of each list, and the position of every scalar
leaf, with the leaf payloads erased. -/
inductive TomlSkel where
  | leaf
  | list (xs : List TomlSkel)
  | table (kvs : List (String × TomlSkel))

mutual
/-- The shape of a value. -/
def skelVal : TomlVal → TomlSkel
  | .vList xs => .list (skelList xs)
  | .vTable kvs => .table (skelPairs kvs)
  | _ => .leaf
/-- The shapes of the items of a list. -/
def skelList : List TomlVal → List TomlSkel
  | [] => []
  | v :: rest => skelVal v :: skelList rest
/-- The keys and value shapes of the entries of a table. -/
def skelPairs : List (String × TomlVal) → List (String × TomlSkel)
  | [] => []
  | (k, v) :: rest => (k, skelVal v) :: skelPairs rest
end

/-- The single try block of the fixture-generator main: the six
document-construction procedures run in order; each successful procedure
counts as completed, and the first procedure that raises ends the batch with
its error caught by the top-level except handler. The outcome of each
procedure, were it invoked, is given as an Except value. Returns the number
of procedures that ran to completion and the caught error, if any. -/
def runFixtureBatch : List (Except String Unit) → Nat × Option String
  | [] => (0, none)
  | .ok _ :: rest =>
      let r := runFixtureBatch rest
      (r.1 + 1, r.2)
  | .error e :: _ => (0, some e)

/-- The fixture-generator main over the outcomes of its six procedures
(simple text, multi page, encrypted, image only, complex, empty), invoked in
that order inside one try block. -/
def fixtureMain (o1 o2 o3 o4 o5 o6 : Except String Unit) : Nat × Option String :=
  runFixtureBatch [o1, o2, o3, o4, o5, o6]

/-- The exit status of the fixture-generator main: sys.exit(1) from the
except handler when some procedure raised, 0 otherwise. -/
def fixtureExitCode (outs : List (Except String Unit)) : Nat :=
  if (runFixtureBatch outs).2.isSome then 1 else 0

/-- The provider-specific placeholder strings that mask_sensitive_value can
produce for a sensitive string value, other than the generic placeholder and
the account-id placeholder. -/
def providerPlaceholders : List String :=
  [("<your-github-token>"), ("<your-xai-api-key>"), ("<your-perplexity-api-key>"),
   ("<your-groq-api-key>"), ("<your-cerebras-api-key>"), ("<your-fireworks-api-key>"),
   ("<your-nvidia-api-key>"), ("<your-huggingface-token>"), ("<your-chutes-api-key>"),
   ("<your-chub-api-key>"), ("<your-nscale-api-key>"), ("<your-meta-api-key>"),
   ("<your-aws-access-key-id>"), ("<your-google-oauth-token>"), ("<your-copilot-token>"),
   ("<your-jwt-token>"), ("<your-private-key>"), ("<your-service-account-json>")]

/-- Every placeholder string mask_sensitive_value can produce directly. -/
def allPlaceholders : List String :=
  providerPlaceholders ++ [("<your-api-key>"), ("<your-account-id>")]

/-- Whether a TOML value is a scalar (not a list and not a table). -/
def isScalar : TomlVal → Bool
  | .vList _ => false
  | .vTable _ => false
  | _ => true

/-- Whether a TOML value is a scalar or a list of scalars. -/
def scalarOrScalarList : TomlVal → Bool
  | .vList xs => xs.all isScalar
  | .vTable _ => false
  | _ => true

theorem str_append_empty (s : String) : s ++ "" = s := String.append_empty s

/-- A successful first-match lookup returns a placeholder of the table. -/
theorem findPrefix_mem (s : String) :
    ∀ (l : List (String × String)) (p : String),
      findPrefixPlaceholder s l = some p → p ∈ l.map Prod.snd
  | [], p, h => by simp [findPrefixPlaceholder] at h
  | (pre, ph) :: rest, p, h => by
      by_cases hc : pyStartsWith s pre = true
      · rw [findPrefixPlaceholder, if_pos hc] at h
        simp at h
        simp [h]
      · rw [findPrefixPlaceholder, if_neg hc] at h
        simp [findPrefix_mem s rest p h]

/-- Under a sensitive key, a non-blank string value is masked either to
the output of mask_json_credentials or to one of the placeholder strings. -/
theorem maskSensitiveStr_masked (key s : String)
    (hne : (pyStrip s == "") = false) :
    maskSensitiveStr key s = mask_json_credentials s ∨
      maskSensitiveStr key s ∈ allPlaceholders := by
  have hsub : ∀ x ∈ prefixPlaceholderTable.map Prod.snd, x ∈ allPlaceholders := by decide
  simp only [maskSensitiveStr]
  rw [if_neg (by simp [hne] : ¬((pyStrip s == "") = true))]
  by_cases h1 : (pyStartsWith (pyStrip s) ("\x7b") && pyIn ("private_key") s) = true
  · rw [if_pos h1]
    exact Or.inl rfl
  · rw [if_neg h1]
    by_cases h2 : (strContainsChar s '.' && decide (3 ≤ (pySplit s '.').length)) = true
    · rw [if_pos h2]
      exact Or.inr (by decide)
    · rw [if_neg h2]
      cases hf : findPrefixPlaceholder s prefixPlaceholderTable with
      | none =>
          simp only [hf]
          by_cases ha : (pyLower key == ("account_id")) = true
          · rw [if_pos ha]
            exact Or.inr (by decide)
          · rw [if_neg ha]
            exact Or.inr (by decide)
      | some p =>
          simp only [hf]
          exact Or.inr (hsub p (findPrefix_mem s _ p hf))

/-- Under a sensitive key, a non-blank string value that triggers none of
the special shape checks and whose key is not exactly account_id receives
the generic placeholder. -/
theorem mask_sv_generic (key s : String)
    (hk : isSensitiveKey key = true)
    (h0 : (pyStrip s == "") = false)
    (h1 : (pyStartsWith (pyStrip s) ("\x7b") && pyIn ("private_key") s) = false)
    (h2 : (strContainsChar s '.' && decide (3 ≤ (pySplit s '.').length)) = false)
    (hpre : findPrefixPlaceholder s prefixPlaceholderTable = none)
    (hacc : (pyLower key == ("account_id")) = false) :
    mask_sensitive_value key (.vStr s) = .vStr ("<your-api-key>") := by
  have h : maskSensitiveStr key s = ("<your-api-key>") := by
    unfold maskSensitiveStr
    simp [h0, h1, h2, hpre, hacc]
  simp [mask_sensitive_value, hk, h]

/-- C1: the claim fails on the code. Under the sensitive key api_key, the
value sk-a.b.c begins with the recognized literal prefix sk- and also has a
three-part dotted shape; mask_sensitive_value classifies it by the
token-shape heuristic, not by the prefix, returning the jwt placeholder
rather than the api-key placeholder. -/
theorem c1_counterexample :
    mask_sensitive_value ("api_key") (.vStr ("sk-a.b.c")) = .vStr ("<your-jwt-token>") ∧
    ("<your-jwt-token>" : String) ≠ ("<your-api-key>") :=
  ⟨rfl, by decide⟩

/-- C1 amended: the token-shape heuristic takes precedence over the literal
prefix checks. For every key matching a sensitivity pattern and every
non-blank string value not routed to the JSON branch, a value containing a
dot and splitting into at least three dot-separated parts is classified as
a jwt token, whatever prefix it carries. -/
theorem c1_amended (key s : String)
    (hk : isSensitiveKey key = true)
    (h0 : (pyStrip s == "") = false)
    (h1 : (pyStartsWith (pyStrip s) ("\x7b") && pyIn ("private_key") s) = false)
    (h2 : (strContainsChar s '.' && decide (3 ≤ (pySplit s '.').length)) = true) :
    mask_sensitive_value key (.vStr s) = .vStr ("<your-jwt-token>") := by
  have h : maskSensitiveStr key s = ("<your-jwt-token>") := by
    unfold maskSensitiveStr
    simp [h0, h1, h2]
  simp [mask_sensitive_value, hk, h]

/-- C1 witness: c1_amended applied to the key api_key and the prefixed
three-part value sk-1.2.3. -/
theorem c1_witness :
    isSensitiveKey ("api_key") = true ∧
    mask_sensitive_value ("api_key") (.vStr ("sk-1.2.3")) = .vStr ("<your-jwt-token>") :=
  ⟨by decide, c1_amended ("api_key") ("sk-1.2.3") (by decide) (by decide) (by decide) (by decide)⟩

/-- C2: the claim fails on the code. Masking the one-entry tree token =
gho_x produces the github placeholder, and masking the result again turns
that placeholder into the generic api-key placeholder, so mask_toml_data is
not idempotent. -/
theorem c2_counterexample :
    mask_toml_data (.vTable [(("token"), .vStr ("gho_x"))]) =
      .vTable [(("token"), .vStr ("<your-github-token>"))] ∧
    mask_toml_data (mask_toml_data (.vTable [(("token"), .vStr ("gho_x"))])) ≠
      mask_toml_data (.vTable [(("token"), .vStr ("gho_x"))]) := by
  refine ⟨rfl, ?_⟩
  have e1 : mask_toml_data (mask_toml_data (.vTable [(("token"), .vStr ("gho_x"))])) =
      .vTable [(("token"), .vStr ("<your-api-key>"))] := rfl
  have e2 : mask_toml_data (.vTable [(("token"), .vStr ("gho_x"))]) =
      .vTable [(("token"), .vStr ("<your-github-token>"))] := rfl
  rw [e1, e2]
  simp

/-- C2 amended: the masking pass is not idempotent. A second pass rewrites
every provider-specific placeholder produced by a first pass under a
sensitive key whose lowered form is not exactly account_id into the generic
api-key placeholder. -/
theorem c2_amended (key p : String)
    (hk : isSensitiveKey key = true)
    (hacc : (pyLower key == ("account_id")) = false)
    (hp : p ∈ providerPlaceholders) :
    mask_sensitive_value key (.vStr p) = .vStr ("<your-api-key>") := by
  fin_cases hp <;>
    exact mask_sv_generic _ _ hk (by decide) (by decide) (by decide) (by decide) hacc

/-- C2 witness: c2_amended applied to the sensitive key token and the
github placeholder produced by a first pass. -/
theorem c2_witness :
    isSensitiveKey ("token") = true ∧
    mask_sensitive_value ("token") (.vStr ("<your-github-token>")) = .vStr ("<your-api-key>") :=
  ⟨by decide, c2_amended ("token") ("<your-github-token>") (by decide) (by decide) (by decide)⟩

/-- C3: the claim fails on the code. The generic placeholder itself is a
non-blank string, and under the sensitive key api_key the redactor returns
it unchanged through the generic fallback, so a non-blank input can come
back equal to the input. -/
theorem c3_counterexample :
    mask_sensitive_value ("api_key") (.vStr ("<your-api-key>")) = .vStr ("<your-api-key>") ∧
    (pyStrip ("<your-api-key>") == "") = false :=
  ⟨rfl, by decide⟩

/-- C3 amended: for every key matching a sensitivity pattern and every
string value whose stripped form is non-empty, mask_sensitive_value returns
a value different from its input provided the input is not itself one of
the placeholder strings and is not a fixed point of mask_json_credentials;
an input that is already a masked form, such as the generic placeholder,
can be returned unchanged. -/
theorem c3_amended (key s : String)
    (hk : isSensitiveKey key = true)
    (hne : (pyStrip s == "") = false)
    (hnp : s ∉ allPlaceholders)
    (hnj : mask_json_credentials s ≠ s) :
    mask_sensitive_value key (.vStr s) ≠ .vStr s := by
  have hwrap : mask_sensitive_value key (.vStr s) = .vStr (maskSensitiveStr key s) := by
    simp [mask_sensitive_value, hk]
  rw [hwrap]
  intro heq
  have hs : maskSensitiveStr key s = s := TomlVal.vStr.inj heq
  rcases maskSensitiveStr_masked key s hne with hj | hmem
  · exact hnj (hj.symm.trans hs)
  · exact hnp (hs ▸ hmem)

/-- C3 witness: c3_amended applied to the sensitive key password and the
plain value hunter2, which is masked to something different. -/
theorem c3_witness :
    isSensitiveKey ("password") = true ∧
    mask_sensitive_value ("password") (.vStr ("hunter2")) ≠ .vStr ("hunter2") :=
  ⟨by decide, c3_amended ("password") ("hunter2") (by decide) (by decide) (by decide) (by decide)⟩

/-- A value under a key matching no sensitivity pattern is returned
unchanged by mask_sensitive_value, whatever it is. -/
theorem mask_sv_not_sensitive (key : String) (v : TomlVal)
    (hk : isSensitiveKey key = false) :
    mask_sensitive_value key v = v := by
  cases v <;> simp [mask_sensitive_value, hk]

/-- Under any key, mask_sensitive_value is the identity on values that are
not strings. -/
theorem mask_sv_nonstring (key : String) (v : TomlVal) (hv : isStrVal v = false) :
    mask_sensitive_value key v = v := by
  cases v with
  | vStr s => simp [isStrVal] at hv
  | vBool b => by_cases hk : isSensitiveKey key = true <;> simp [mask_sensitive_value, hk]
  | vInt n => by_cases hk : isSensitiveKey key = true <;> simp [mask_sensitive_value, hk]
  | vFloat r => by_cases hk : isSensitiveKey key = true <;> simp [mask_sensitive_value, hk]
  | vDatetime d => by_cases hk : isSensitiveKey key = true <;> simp [mask_sensitive_value, hk]
  | vList xs => by_cases hk : isSensitiveKey key = true <;> simp [mask_sensitive_value, hk]
  | vTable kvs => by_cases hk : isSensitiveKey key = true <;> simp [mask_sensitive_value, hk]

/-- C10: under every key matching a sensitivity pattern, boolean, integer
and float values are returned unchanged by mask_sensitive_value and by the
per-entry transform of mask_toml_data: redaction only ever rewrites string
values, so numeric or boolean values under keys such as account_id or
subscription reach the sanitized output in the clear. -/
theorem c10_nonstring_scalars_pass (key : String) (b : Bool) (n : Int) (r : String)
    (_hk : isSensitiveKey key = true) :
    mask_sensitive_value key (.vBool b) = .vBool b ∧
    mask_sensitive_value key (.vInt n) = .vInt n ∧
    mask_sensitive_value key (.vFloat r) = .vFloat r ∧
    maskEntryValue key (.vBool b) = .vBool b ∧
    maskEntryValue key (.vInt n) = .vInt n ∧
    maskEntryValue key (.vFloat r) = .vFloat r := by
  have hb : mask_sensitive_value key (.vBool b) = .vBool b :=
    mask_sv_nonstring key _ rfl
  have hn : mask_sensitive_value key (.vInt n) = .vInt n :=
    mask_sv_nonstring key _ rfl
  have hr : mask_sensitive_value key (.vFloat r) = .vFloat r :=
    mask_sv_nonstring key _ rfl
  exact ⟨hb, hn, hr, hb, hn, hr⟩

/-- C10 witness: c10_nonstring_scalars_pass applied to the sensitive key
account_id with a boolean, the integer 42 and a float. -/
theorem c10_witness :
    isSensitiveKey ("account_id") = true ∧
    mask_sensitive_value ("account_id") (.vInt 42) = .vInt 42 :=
  ⟨by decide, (c10_nonstring_scalars_pass ("account_id") true 42 ("1.5") (by decide)).2.1⟩

/-- A list of scalars under a non-sensitive key maps to itself. -/
theorem maskValueList_id (key : String) (hk : isSensitiveKey key = false) :
    ∀ xs : List TomlVal, xs.all isScalar = true → maskValueList key xs = xs
  | [], _ => rfl
  | x :: rest, h => by
      have h2 : (isScalar x && rest.all isScalar) = true := by rwa [List.all_cons] at h
      rw [Bool.and_eq_true] at h2
      have hmask := mask_sv_not_sensitive key x hk
      have hrest := maskValueList_id key hk rest h2.2
      cases x with
      | vTable kvs => simp [isScalar] at h2
      | vList xs2 => simp [isScalar] at h2
      | vStr s =>
          show mask_sensitive_value key (.vStr s) :: maskValueList key rest = _
          rw [hmask, hrest]
      | vBool b =>
          show mask_sensitive_value key (.vBool b) :: maskValueList key rest = _
          rw [hmask, hrest]
      | vInt n =>
          show mask_sensitive_value key (.vInt n) :: maskValueList key rest = _
          rw [hmask, hrest]
      | vFloat r =>
          show mask_sensitive_value key (.vFloat r) :: maskValueList key rest = _
          rw [hmask, hrest]
      | vDatetime d =>
          show mask_sensitive_value key (.vDatetime d) :: maskValueList key rest = _
          rw [hmask, hrest]

/-- C7: for every key matching no sensitivity pattern, the masking pass
returns the value completely unchanged for every scalar type and for lists
of scalars: both mask_sensitive_value and the per-entry transform of
mask_toml_data are the identity on such entries. -/
theorem c7_nonsensitive_unchanged (key : String) (v : TomlVal)
    (hk : isSensitiveKey key = false)
    (hv : scalarOrScalarList v = true) :
    maskEntryValue key v = v ∧ mask_sensitive_value key v = v := by
  refine ⟨?_, mask_sv_not_sensitive key v hk⟩
  cases v with
  | vTable kvs => simp [scalarOrScalarList] at hv
  | vList xs =>
      show TomlVal.vList (maskValueList key xs) = TomlVal.vList xs
      rw [maskValueList_id key hk xs hv]
  | vStr s => exact mask_sv_not_sensitive key _ hk
  | vBool b => exact mask_sv_not_sensitive key _ hk
  | vInt n => exact mask_sv_not_sensitive key _ hk
  | vFloat r => exact mask_sv_not_sensitive key _ hk
  | vDatetime d => exact mask_sv_not_sensitive key _ hk

/-- C7 witness: c7_nonsensitive_unchanged applied to the non-sensitive key
model and a list holding a credential-shaped string and a boolean. -/
theorem c7_witness :
    isSensitiveKey ("model") = false ∧
    maskEntryValue ("model") (.vList [.vStr ("sk-abc123"), .vBool true]) =
      .vList [.vStr ("sk-abc123"), .vBool true] :=
  ⟨by decide,
   (c7_nonsensitive_unchanged ("model") (.vList [.vStr ("sk-abc123"), .vBool true])
     (by decide) (by decide)).1⟩

/-- C4: the claim fails on the code. All six document-construction
procedures run inside one try block in main; when the first procedure
raises, the except handler catches the error, no further procedure runs
(zero procedures complete instead of the five remaining ones), and the
process exits with status 1. -/
theorem c4_counterexample :
    fixtureMain (.error ("boom")) (.ok ()) (.ok ()) (.ok ()) (.ok ()) (.ok ()) =
      (0, some ("boom")) ∧
    (fixtureMain (.error ("boom")) (.ok ()) (.ok ()) (.ok ()) (.ok ()) (.ok ())).1 ≠ 5 ∧
    fixtureExitCode [.error ("boom"), .ok (), .ok (), .ok (), .ok (), .ok ()] = 1 :=
  ⟨rfl, by decide, rfl⟩

/-- C4 amended: the six fixture procedures are not wrapped individually but
share a single try block: every procedure before the first failing one runs
to completion, the first error is caught and reported by the top-level
handler, the procedures after the failing one do not run, and the process
exits with status 1. -/
theorem c4_amended (pre post : List (Except String Unit)) (e : String)
    (h : ∀ x ∈ pre, x = .ok ()) :
    runFixtureBatch (pre ++ .error e :: post) = (pre.length, some e) ∧
    fixtureExitCode (pre ++ .error e :: post) = 1 := by
  have hrun : runFixtureBatch (pre ++ .error e :: post) = (pre.length, some e) := by
    induction pre with
    | nil => rfl
    | cons x rest ih =>
        have hx : x = .ok () := h x (List.mem_cons_self x rest)
        subst hx
        have ih2 := ih (fun y hy => h y (List.mem_cons_of_mem _ hy))
        simp only [List.cons_append, runFixtureBatch, List.append_eq, ih2, List.length_cons]
  refine ⟨hrun, ?_⟩
  simp [fixtureExitCode, hrun]

/-- C4 witness: c4_amended applied to a batch whose third procedure fails:
the two procedures before it complete, the three after it never run. -/
theorem c4_witness :
    runFixtureBatch [.ok (), .ok (), .error ("boom3"), .ok (), .ok (), .ok ()] =
      (2, some ("boom3")) ∧
    fixtureExitCode [.ok (), .ok (), .error ("boom3"), .ok (), .ok (), .ok ()] = 1 :=
  c4_amended [.ok (), .ok ()] [.ok (), .ok (), .ok ()] ("boom3")
    (by intro x hx; fin_cases hx <;> rfl)

/-- mask_sensitive_value preserves the shape of every value: a string is
replaced by a string, everything else is untouched. -/
theorem skel_mask_sv (key : String) (v : TomlVal) :
    skelVal (mask_sensitive_value key v) = skelVal v := by
  cases v with
  | vStr s =>
      have h : mask_sensitive_value key (.vStr s) =
          (if isSensitiveKey key then TomlVal.vStr (maskSensitiveStr key s)
           else TomlVal.vStr s) := rfl
      rw [h]
      by_cases hk : isSensitiveKey key = true
      · rw [if_pos hk]
        rfl
      · rw [if_neg hk]
  | vBool b => exact congrArg skelVal (mask_sv_nonstring key _ rfl)
  | vInt n => exact congrArg skelVal (mask_sv_nonstring key _ rfl)
  | vFloat r => exact congrArg skelVal (mask_sv_nonstring key _ rfl)
  | vDatetime d => exact congrArg skelVal (mask_sv_nonstring key _ rfl)
  | vList xs => exact congrArg skelVal (mask_sv_nonstring key _ rfl)
  | vTable kvs => exact congrArg skelVal (mask_sv_nonstring key _ rfl)

mutual
/-- mask_toml_data preserves the shape of every value. -/
theorem skel_mask_toml : ∀ v : TomlVal, skelVal (mask_toml_data v) = skelVal v
  | .vStr _ => rfl
  | .vBool _ => rfl
  | .vInt _ => rfl
  | .vFloat _ => rfl
  | .vDatetime _ => rfl
  | .vList xs => congrArg TomlSkel.list (skel_maskTopList xs)
  | .vTable kvs => congrArg TomlSkel.table (skel_maskPairs kvs)
/-- The dict comprehension of mask_toml_data preserves keys, order and
value shapes. -/
theorem skel_maskPairs :
    ∀ kvs : List (String × TomlVal), skelPairs (maskPairs kvs) = skelPairs kvs
  | [] => rfl
  | (k, v) :: rest => by
      show (k, skelVal (maskEntryValue k v)) :: skelPairs (maskPairs rest) =
        (k, skelVal v) :: skelPairs rest
      rw [skel_maskEntry k v, skel_maskPairs rest]
/-- The per-entry transform of mask_toml_data preserves the shape of the
entry value. -/
theorem skel_maskEntry :
    ∀ (k : String) (v : TomlVal), skelVal (maskEntryValue k v) = skelVal v
  | _, .vTable kvs => congrArg TomlSkel.table (skel_maskPairs kvs)
  | k, .vList xs => congrArg TomlSkel.list (skel_maskValueList k xs)
  | k, .vStr s => skel_mask_sv k (.vStr s)
  | k, .vBool b => skel_mask_sv k (.vBool b)
  | k, .vInt n => skel_mask_sv k (.vInt n)
  | k, .vFloat r => skel_mask_sv k (.vFloat r)
  | k, .vDatetime d => skel_mask_sv k (.vDatetime d)
/-- The list comprehension over a list value preserves length, order and
item shapes. -/
theorem skel_maskValueList :
    ∀ (k : String) (xs : List TomlVal), skelList (maskValueList k xs) = skelList xs
  | _, [] => rfl
  | k, .vTable kvs :: rest => by
      show TomlSkel.table (skelPairs (maskPairs kvs)) :: skelList (maskValueList k rest) =
        TomlSkel.table (skelPairs kvs) :: skelList rest
      rw [skel_maskPairs kvs, skel_maskValueList k rest]
  | k, .vStr s :: rest => by
      show skelVal (mask_sensitive_value k (.vStr s)) :: skelList (maskValueList k rest) =
        skelVal (.vStr s) :: skelList rest
      rw [skel_mask_sv k (.vStr s), skel_maskValueList k rest]
  | k, .vBool b :: rest => by
      show skelVal (mask_sensitive_value k (.vBool b)) :: skelList (maskValueList k rest) =
        skelVal (.vBool b) :: skelList rest
      rw [skel_mask_sv k (.vBool b), skel_maskValueList k rest]
  | k, .vInt n :: rest => by
      show skelVal (mask_sensitive_value k (.vInt n)) :: skelList (maskValueList k rest) =
        skelVal (.vInt n) :: skelList rest
      rw [skel_mask_sv k (.vInt n), skel_maskValueList k rest]
  | k, .vFloat r :: rest => by
      show skelVal (mask_sensitive_value k (.vFloat r)) :: skelList (maskValueList k rest) =
        skelVal (.vFloat r) :: skelList rest
      rw [skel_mask_sv k (.vFloat r), skel_maskValueList k rest]
  | k, .vDatetime d :: rest => by
      show skelVal (mask_sensitive_value k (.vDatetime d)) :: skelList (maskValueList k rest) =
        skelVal (.vDatetime d) :: skelList rest
      rw [skel_mask_sv k (.vDatetime d), skel_maskValueList k rest]
  | k, .vList ys :: rest => by
      show skelVal (mask_sensitive_value k (.vList ys)) :: skelList (maskValueList k rest) =
        skelVal (.vList ys) :: skelList rest
      rw [skel_mask_sv k (.vList ys), skel_maskValueList k rest]
/-- The list comprehension over a top-level list preserves length, order
and item shapes. -/
theorem skel_maskTopList :
    ∀ xs : List TomlVal, skelList (maskTopList xs) = skelList xs
  | [] => rfl
  | .vTable kvs :: rest => by
      show TomlSkel.table (skelPairs (maskPairs kvs)) :: skelList (maskTopList rest) =
        TomlSkel.table (skelPairs kvs) :: skelList rest
      rw [skel_maskPairs kvs, skel_maskTopList rest]
  | .vStr s :: rest => by
      show skelVal (.vStr s) :: skelList (maskTopList rest) = skelVal (.vStr s) :: skelList rest
      rw [skel_maskTopList rest]
  | .vBool b :: rest => by
      show skelVal (.vBool b) :: skelList (maskTopList rest) = skelVal (.vBool b) :: skelList rest
      rw [skel_maskTopList rest]
  | .vInt n :: rest => by
      show skelVal (.vInt n) :: skelList (maskTopList rest) = skelVal (.vInt n) :: skelList rest
      rw [skel_maskTopList rest]
  | .vFloat r :: rest => by
      show skelVal (.vFloat r) :: skelList (maskTopList rest) = skelVal (.vFloat r) :: skelList rest
      rw [skel_maskTopList rest]
  | .vDatetime d :: rest => by
      show skelVal (.vDatetime d) :: skelList (maskTopList rest) = skelVal (.vDatetime d) :: skelList rest
      rw [skel_maskTopList rest]
  | .vList ys :: rest => by
      show skelVal (.vList ys) :: skelList (maskTopList rest) = skelVal (.vList ys) :: skelList rest
      rw [skel_maskTopList rest]
end

/-- C6: for every input tree, the tree returned by mask_toml_data has the
same shape: identical key lists in every table, identical list lengths and
order at every level, identical nesting, with only scalar leaf payloads
possibly changed. -/
theorem c6_structure_preserved (t : TomlVal) :
    skelVal (mask_toml_data t) = skelVal t :=
  skel_mask_toml t

/-- A key present in a parsed object makes the membership test true. -/
theorem dictContains_of_mem {kvs : List (String × Json)} {k : String} {v : Json}
    (h : (k, v) ∈ kvs) : dictContains kvs k = true := by
  unfold dictContains
  rw [List.any_eq_true]
  exact ⟨(k, v), h, by simp⟩

/-- Assigning a present key puts the new value at that key. -/
theorem dictAssign_mem_self {kvs : List (String × Json)} {k : String} {v : Json}
    (h : (k, v) ∈ kvs) (w : Json) : (k, w) ∈ dictAssign kvs k w := by
  unfold dictAssign
  have := List.mem_map_of_mem (fun p : String × Json => if p.1 == k then (p.1, w) else p) h
  simpa using this

/-- Assigning some other key leaves an entry untouched. -/
theorem dictAssign_mem_other {kvs : List (String × Json)} {k : String} {v : Json}
    (h : (k, v) ∈ kvs) {f : String} (hne : k ≠ f) (w : Json) :
    (k, v) ∈ dictAssign kvs f w := by
  unfold dictAssign
  have := List.mem_map_of_mem (fun p : String × Json => if p.1 == f then (p.1, w) else p) h
  simpa [beq_eq_false_iff_ne.mpr hne] using this

/-- Assignment never changes the key list of a parsed object. -/
theorem dictAssign_keys (kvs : List (String × Json)) (f : String) (w : Json) :
    (dictAssign kvs f w).map Prod.fst = kvs.map Prod.fst := by
  unfold dictAssign
  rw [List.map_map]
  apply List.map_congr_left
  intro p _
  by_cases hp : p.1 = f <;> simp [hp]

/-- The field-replacement loop never changes the key list. -/
theorem maskFold_keys :
    ∀ (fields : List String) (acc : List (String × Json)),
      (List.foldl maskJsonStep acc fields).map Prod.fst = acc.map Prod.fst
  | [], _ => rfl
  | f :: rest, acc => by
      rw [List.foldl_cons, maskFold_keys rest]
      unfold maskJsonStep
      by_cases hc : dictContains acc f = true
      · rw [if_pos hc, dictAssign_keys]
      · rw [if_neg hc]

/-- An entry already holding the placeholder of its key survives the loop. -/
theorem maskFold_mem_stable :
    ∀ (fields : List String) (acc : List (String × Json)) (k : String),
      (k, Json.jStr (jsonFieldPlaceholder k)) ∈ acc →
      (k, Json.jStr (jsonFieldPlaceholder k)) ∈ List.foldl maskJsonStep acc fields
  | [], _, _, h => h
  | f :: rest, acc, k, h => by
      rw [List.foldl_cons]
      apply maskFold_mem_stable rest
      unfold maskJsonStep
      by_cases hc : dictContains acc f = true
      · rw [if_pos hc]
        by_cases hkf : k = f
        · subst hkf
          exact dictAssign_mem_self h _
        · exact dictAssign_mem_other h hkf _
      · rw [if_neg hc]
        exact h

/-- An entry whose key is none of the processed fields is untouched by the
loop. -/
theorem maskFold_mem_absent :
    ∀ (fields : List String) (acc : List (String × Json)) (k : String) (v : Json),
      (k, v) ∈ acc → k ∉ fields → (k, v) ∈ List.foldl maskJsonStep acc fields
  | [], _, _, _, h, _ => h
  | f :: rest, acc, k, v, h, hnf => by
      rw [List.foldl_cons]
      have hne : k ≠ f := fun he => hnf (he ▸ List.mem_cons_self f rest)
      apply maskFold_mem_absent rest _ k v _ (fun hr => hnf (List.mem_cons_of_mem f hr))
      unfold maskJsonStep
      by_cases hc : dictContains acc f = true
      · rw [if_pos hc]
        exact dictAssign_mem_other h hne _
      · rw [if_neg hc]
        exact h

/-- An entry whose key is one of the processed fields ends the loop holding
the named placeholder of its key. -/
theorem maskFold_mem_present :
    ∀ (fields : List String) (acc : List (String × Json)) (k : String) (v : Json),
      (k, v) ∈ acc → k ∈ fields →
      (k, Json.jStr (jsonFieldPlaceholder k)) ∈ List.foldl maskJsonStep acc fields
  | [], _, _, _, _, hf => absurd hf (List.not_mem_nil _)
  | f :: rest, acc, k, v, h, hf => by
      rw [List.foldl_cons]
      by_cases hkf : k = f
      · subst hkf
        apply maskFold_mem_stable rest
        unfold maskJsonStep
        rw [if_pos (dictContains_of_mem h)]
        exact dictAssign_mem_self h _
      · have hr : k ∈ rest := by
          rcases List.mem_cons.mp hf with he | hr
          · exact absurd he hkf
          · exact hr
        have hstep : (k, v) ∈ maskJsonStep acc f := by
          unfold maskJsonStep
          by_cases hc : dictContains acc f = true
          · rw [if_pos hc]
            exact dictAssign_mem_other h hkf _
          · rw [if_neg hc]
            exact h
        exact maskFold_mem_present rest _ k v hstep hr

/-- C8: mask_json_credentials replaces a string that fails to parse as JSON
by the generic service-account placeholder without raising, and on a string
parsing as a JSON object it re-serializes the object with exactly the
present sensitive fields replaced by their named placeholders: the key list
is unchanged, every present sensitive field holds its named placeholder,
and every other field keeps its original value. -/
theorem c8_json_credentials (s : String) :
    (parseJson s = none → mask_json_credentials s = ("<your-service-account-json>")) ∧
    (∀ kvs, parseJson s = some (.jObj kvs) →
      mask_json_credentials s = jdumps (.jObj (maskJsonFields kvs)) ∧
      (maskJsonFields kvs).map Prod.fst = kvs.map Prod.fst ∧
      (∀ k v, (k, v) ∈ kvs → k ∈ sensitive_json_fields →
        (k, Json.jStr (jsonFieldPlaceholder k)) ∈ maskJsonFields kvs) ∧
      (∀ k v, (k, v) ∈ kvs → k ∉ sensitive_json_fields → (k, v) ∈ maskJsonFields kvs)) := by
  constructor
  · intro h
    unfold mask_json_credentials
    rw [h]
  · intro kvs h
    refine ⟨?_, maskFold_keys sensitive_json_fields kvs, ?_, ?_⟩
    · unfold mask_json_credentials
      rw [h]
    · intro k v hmem hk
      exact maskFold_mem_present sensitive_json_fields kvs k v hmem hk
    · intro k v hmem hk
      exact maskFold_mem_absent sensitive_json_fields kvs k v hmem hk

/-- C8 witness: c8_json_credentials applied to a malformed blob and to a
two-field service-account object. -/
theorem c8_witness :
    mask_json_credentials ("not json") = ("<your-service-account-json>") ∧
    mask_json_credentials ("\x7b\"private_key\": \"abc\", \"foo\": \"bar\"\x7d") =
      jdumps (.jObj (maskJsonFields [(("private_key"), .jStr ("abc")), (("foo"), .jStr ("bar"))])) ∧
    (("private_key"), Json.jStr ("<your-private-key>")) ∈
      maskJsonFields [(("private_key"), .jStr ("abc")), (("foo"), .jStr ("bar"))] ∧
    (("foo"), Json.jStr ("bar")) ∈
      maskJsonFields [(("private_key"), .jStr ("abc")), (("foo"), .jStr ("bar"))] := by
  have h1 := (c8_json_credentials ("not json")).1 (by rfl)
  have h2 := (c8_json_credentials ("\x7b\"private_key\": \"abc\", \"foo\": \"bar\"\x7d")).2
    [(("private_key"), .jStr ("abc")), (("foo"), .jStr ("bar"))] (by rfl)
  refine ⟨h1, h2.1, ?_, ?_⟩
  · exact h2.2.2.1 ("private_key") (.jStr ("abc")) (List.Mem.head _) (by decide)
  · exact h2.2.2.2 ("foo") (.jStr ("bar")) (List.Mem.tail _ (List.Mem.head _)) (by decide)

/-- C5: the claim fails on the code. In a tree nested three levels deep,
the serializer emits the depth-three section header qualified only by its
immediate parent: the output contains the header beta.gamma in brackets and
nowhere the fully qualified alpha.beta.gamma path. -/
theorem c5_counterexample :
    write_toml [(("alpha"), .vTable [(("beta"), .vTable [(("gamma"),
        .vTable [(("flag"), .vBool true)])])])] 0 ("") =
      ("\n[alpha]\n\n[alpha.beta]\n\n[beta.gamma]\nflag = true\n") ∧
    pyIn ("[alpha.beta.gamma]")
      (write_toml [(("alpha"), .vTable [(("beta"), .vTable [(("gamma"),
        .vTable [(("flag"), .vBool true)])])])] 0 ("")) = false :=
  ⟨rfl, by decide⟩

/-- C5 amended: write_toml qualifies a nested section header with only the
immediate parent section name, not the full path of enclosing sections. At
depth one the header is the bare key and at depth two it is the dotted pair,
so only at depth at most two does the header coincide with the fully
qualified path; from depth three on the emitted path drops all higher
ancestors, as the b.c header under the a.b section shows for every subtree. -/
theorem c5_amended (x : List (String × TomlVal)) :
    write_toml [(("a"), .vTable [(("b"), .vTable [(("c"), .vTable x)])])] 0 ("") =
      ("\n[a]\n\n[a.b]\n\n[b.c]\n") ++ write_toml x 0 ("c") := by
  have e : write_toml [(("a"), .vTable [(("b"), .vTable [(("c"), .vTable x)])])] 0 ("") =
      ("\n[a]\n" ++ (("\n[a.b]\n" ++ (("\n[b.c]\n" ++
        (writeScalarItems x 0 ("c") ++ writeSectionItems x 0 ("c"))) ++ "")) ++ "")) ++ "" := rfl
  rw [e]
  simp only [String.append_empty, write_toml]
  conv_lhs => rw [← String.append_assoc, ← String.append_assoc]
  simp

/-- C9: the claim fails on the code in one detail. For a key whose value is
a datetime, write_toml indeed emits no key-value assignment line, but when
the comment table applies to the key it still emits the comment line and
its trailing blank line, so it is not true that no line at all is emitted
for such a key: under the cached_token section, an expires_at datetime
leaves its explanatory comment in the output. -/
theorem c9_counterexample :
    write_toml [(("cached_token"), .vTable [(("expires_at"),
        .vDatetime ("2031-01-01"))])] 0 ("") =
      ("\n[cached_token]\n# Token expiration timestamp\n\n") ∧
    pyIn ("# Token expiration timestamp")
      (write_toml [(("cached_token"), .vTable [(("expires_at"),
        .vDatetime ("2031-01-01"))])] 0 ("")) = true ∧
    pyIn ("expires_at = ")
      (write_toml [(("cached_token"), .vTable [(("expires_at"),
        .vDatetime ("2031-01-01"))])] 0 ("")) = false :=
  ⟨rfl, by decide, by decide⟩

/-- C9 amended: for a key holding a scalar of a type other than string,
boolean, integer or float — a date or datetime — write_toml emits no
key-value line at all: the whole rendering of such an entry is its comment
line followed by a blank line when a comment applies, and empty otherwise,
so the serialized output drops the key even though mask_toml_data preserves
it. -/
theorem c9_amended (key d parent : String) (ind : Nat) :
    write_toml [(key, .vDatetime d)] ind parent =
      (if get_comment_for_key key (.vDatetime d) parent == "" then ""
       else (indentStr ind ++ get_comment_for_key key (.vDatetime d) parent) ++ "\n" ++ "\n") := by
  have e : write_toml [(key, .vDatetime d)] ind parent =
      ((((if (get_comment_for_key key (.vDatetime d) parent == "") = true then ""
          else (indentStr ind ++ get_comment_for_key key (.vDatetime d) parent) ++ "\n") ++ "") ++
        (if (get_comment_for_key key (.vDatetime d) parent == "") = true then ""
         else "\n")) ++ "") ++ "" := rfl
  rw [e]
  simp only [String.append_empty]
  cases hc : (get_comment_for_key key (.vDatetime d) parent == "") <;> simp [hc]
